import Mathlib

/-!
Verification of the router-runtime core (NodeDB, DHT find-router handlers,
path subsystem, connection manager) against its natural-language
specification, via a shallow embedding of the C++ sources.
-/

namespace LokiNet

/-! ### Basic identifiers

Byte-array identifiers (32-byte pubkeys, 16-byte path ids) are abstracted
to naturals; only equality of the keys matters to the claims. -/

abbrev PubKey := Nat
abbrev RouterID := Nat
abbrev PathID := Nat
/-- `llarp_time_t`: milliseconds since epoch. -/
abbrev Time := Nat

/-- `llarp::RouterContact`, abstracted to the fields the claims consult:
the identity pubkey, the number of `AddressInfo` entries in `addrs`, and
the (pure, crypto-abstracted) outcome of `rc.Verify(crypto)`. -/
structure RouterContact where
  pubkey : PubKey
  addrsCount : Nat
  sigValid : Bool
  deriving DecidableEq, Repr

instance : Inhabited RouterContact := ⟨⟨0, 0, false⟩⟩

/-- Modelled from the spec: `RouterContact::IsPublicRouter` is declared in
`router_contact.hpp` (outside src); the spec states an RC is public iff it
carries at least one address. -/
def RouterContact.IsPublicRouter (rc : RouterContact) : Bool :=
  rc.addrsCount ≠ 0

/-! ### Association lists

`std::unordered_map< Key, V >` is embedded as an association list with
unique keys kept in insertion order.  `insert` follows the C++ semantics:
it does NOT overwrite an existing key. -/

/-- `map.find(k)` / `map.at(k)` on an association list. -/
def alistFind {α : Type} (l : List (Nat × α)) (k : Nat) : Option α :=
  (l.find? (fun e => e.1 == k)).map (·.2)

/-- `map.insert(make_pair(k, v))`: inserts only when `k` is absent. -/
def alistInsert {α : Type} (l : List (Nat × α)) (k : Nat) (v : α) :
    List (Nat × α) :=
  if (l.find? (fun e => e.1 == k)).isSome then l else l ++ [(k, v)]

/-- `map.erase(k)` by key. -/
def alistErase {α : Type} (l : List (Nat × α)) (k : Nat) : List (Nat × α) :=
  l.filter (fun e => !(e.1 == k))

/-- `map[k] = v` on an existing key: update in place. -/
def alistUpdate {α : Type} (l : List (Nat × α)) (k : Nat) (v : α) :
    List (Nat × α) :=
  l.map (fun e => if e.1 == k then (e.1, v) else e)

theorem alistFind_append {α : Type} (l₁ l₂ : List (Nat × α)) (k : Nat) :
    alistFind (l₁ ++ l₂) k = (alistFind l₁ k).or (alistFind l₂ k) := by
  simp only [alistFind, List.find?_append]
  cases l₁.find? (fun e => e.1 == k) <;> simp

theorem alistFind_singleton {α : Type} (k p : Nat) (v : α) :
    alistFind [(k, v)] p = if k = p then some v else none := by
  by_cases h : k = p
  · subst h; simp [alistFind, List.find?]
  · have hb : (k == p) = false := by simpa using h
    simp [alistFind, List.find?, hb, h]

theorem alistFind_insert_self {α : Type} (l : List (Nat × α)) (k : Nat)
    (v : α) : (alistFind (alistInsert l k v) k).isSome = true := by
  unfold alistInsert
  by_cases h : (l.find? (fun e => e.1 == k)).isSome = true
  · simp [alistFind, h]
  · rw [if_neg h, alistFind_append, alistFind_singleton]
    have hl : alistFind l k = none := by
      simp only [alistFind]
      cases hf : l.find? (fun e => e.1 == k) with
      | none => rfl
      | some e => rw [hf] at h; simp at h
    simp [hl]

theorem alistFind_insert_cases {α : Type} (l : List (Nat × α)) (k p : Nat)
    (v w : α) (h : alistFind (alistInsert l k v) p = some w) :
    alistFind l p = some w ∨ w = v := by
  unfold alistInsert at h
  by_cases hc : (l.find? (fun e => e.1 == k)).isSome = true
  · rw [if_pos hc] at h
    exact Or.inl h
  · rw [if_neg hc, alistFind_append, alistFind_singleton] at h
    cases hf : alistFind l p with
    | some u =>
      rw [hf] at h
      simp only [Option.or] at h
      exact Or.inl h
    | none =>
      rw [hf] at h
      simp only [Option.none_or] at h
      by_cases hk : k = p
      · rw [if_pos hk] at h
        exact Or.inr (Option.some_injective _ h).symm
      · rw [if_neg hk] at h
        exact absurd h (by simp)

/-! ### NodeDB (`llarp_nodedb`, src/unnamed/part_001)

The `entries` map is `PubKey → RouterContact`.  Disk and bencode outcomes
are explicit inputs (`encodeOk` for `rc.BEncode(&buf)`, `writeOk` for the
`ofstream` write), since they are environment effects. -/

abbrev Entries := List (PubKey × RouterContact)

/-- `llarp_nodedb::Insert` (part_001:70-97): commit `rc` to the in-memory
`entries` map first, then bencode, then write the RC file; returns false
when the encode or the write fails, true otherwise. -/
def llarp_nodedb_Insert (es : Entries) (rc : RouterContact)
    (encodeOk writeOk : Bool) : Entries × Bool :=
  let es' := alistInsert es rc.pubkey rc
  if !encodeOk then (es', false)
  else if !writeOk then (es', false)
  else (es', true)

/-- Outcome of one run of the three-stage async verify pipeline. -/
structure VerifyOutcome where
  entries : Entries
  insertCalled : Bool
  hookFired : Bool
  hookValid : Bool
  deriving DecidableEq, Repr

/-- `llarp_nodedb_async_verify` followed to completion
(part_001:228-251 `crypto_threadworker_verifyrc`,
part_001:216-226 `disk_threadworker_setRC`,
part_001:207-214 `logic_threadworker_callback`):
crypto stage sets `valid := rc.Verify(crypto)`; the disk stage runs only
when `valid && rc.IsPublicRouter()` and overwrites `valid` with the
result of `NodeDB.Insert`; the logic stage fires the completion hook
(always installed by `Router::async_verify_RC`). -/
def llarp_nodedb_async_verify (es : Entries) (rc : RouterContact)
    (encodeOk writeOk : Bool) : VerifyOutcome :=
  if rc.sigValid && rc.IsPublicRouter then
    { entries := (llarp_nodedb_Insert es rc encodeOk writeOk).1,
      insertCalled := true, hookFired := true,
      hookValid := (llarp_nodedb_Insert es rc encodeOk writeOk).2 }
  else
    { entries := es, insertCalled := false, hookFired := true,
      hookValid := rc.sigValid }

/-- C6: `llarp_nodedb::Insert` commits the entry to the in-memory map
before encoding and writing the RC file; on encode or write failure it
returns false while the in-memory entry for that pubkey still exists, and
it returns true exactly when both the encode and the write succeed. -/
theorem insert_commits_before_write (es : Entries) (rc : RouterContact)
    (encodeOk writeOk : Bool) :
    (llarp_nodedb_Insert es rc encodeOk writeOk).2 = (encodeOk && writeOk)
    ∧ (alistFind (llarp_nodedb_Insert es rc encodeOk writeOk).1
        rc.pubkey).isSome = true := by
  constructor
  · cases encodeOk <;> cases writeOk <;> rfl
  · have h := alistFind_insert_self es rc.pubkey rc
    cases encodeOk <;> cases writeOk <;> simpa [llarp_nodedb_Insert] using h

/-- C1: in the async verify pipeline, `NodeDB.Insert` runs only when the
crypto-stage verification succeeded and the RC is a public router; the
pipeline never adds an RC with a failing signature to `entries`; and on a
crypto-stage or disk-stage failure the completion hook still fires with
`valid == false`. -/
theorem async_verify_pipeline_ok (es : Entries) (rc : RouterContact)
    (encodeOk writeOk : Bool)
    (hinv : ∀ p r, alistFind es p = some r → r.sigValid = true) :
    (((llarp_nodedb_async_verify es rc encodeOk writeOk).insertCalled = true)
      → rc.sigValid = true ∧ rc.IsPublicRouter = true)
    ∧ (∀ p r,
        alistFind (llarp_nodedb_async_verify es rc encodeOk writeOk).entries
          p = some r → r.sigValid = true)
    ∧ (rc.sigValid = false →
        (llarp_nodedb_async_verify es rc encodeOk writeOk).hookFired = true
        ∧ (llarp_nodedb_async_verify es rc encodeOk writeOk).hookValid
            = false)
    ∧ (rc.sigValid = true → rc.IsPublicRouter = true →
        (encodeOk && writeOk) = false →
        (llarp_nodedb_async_verify es rc encodeOk writeOk).hookFired = true
        ∧ (llarp_nodedb_async_verify es rc encodeOk writeOk).hookValid
            = false) := by
  unfold llarp_nodedb_async_verify
  by_cases hv : (rc.sigValid && rc.IsPublicRouter) = true
  · obtain ⟨hs, hp⟩ := Bool.and_eq_true_iff.mp hv
    rw [if_pos hv]
    refine ⟨fun _ => ⟨hs, hp⟩, ?_, ?_, ?_⟩
    · intro p r hfind
      have hent : (llarp_nodedb_Insert es rc encodeOk writeOk).1
          = alistInsert es rc.pubkey rc := by
        cases encodeOk <;> cases writeOk <;> rfl
      rw [hent] at hfind
      rcases alistFind_insert_cases es rc.pubkey p rc r hfind with h | h
      · exact hinv p r h
      · rw [h]; exact hs
    · intro hbad; rw [hs] at hbad; exact absurd hbad (by simp)
    · intro _ _ hio
      refine ⟨rfl, ?_⟩
      have : (llarp_nodedb_Insert es rc encodeOk writeOk).2
          = (encodeOk && writeOk) :=
        (insert_commits_before_write es rc encodeOk writeOk).1
      simpa [this] using hio
  · rw [if_neg hv]
    refine ⟨fun h => absurd h (by simp), fun p r h => hinv p r h, ?_, ?_⟩
    · intro hbad; exact ⟨rfl, hbad⟩
    · intro hs hp _
      exact absurd (Bool.and_eq_true_iff.mpr ⟨hs, hp⟩) hv

/-- Concrete witness for `async_verify_pipeline_ok`: an empty NodeDB and a
valid public RC. -/
theorem async_verify_pipeline_ok_witness :
    (∀ p r, alistFind ([] : Entries) p = some r → r.sigValid = true)
    ∧ ((((llarp_nodedb_async_verify [] ⟨1, 1, true⟩ true true).insertCalled
          = true)
        → RouterContact.sigValid ⟨1, 1, true⟩ = true
          ∧ RouterContact.IsPublicRouter ⟨1, 1, true⟩ = true)
      ∧ (∀ p r,
          alistFind (llarp_nodedb_async_verify [] ⟨1, 1, true⟩ true
            true).entries p = some r → r.sigValid = true)
      ∧ (RouterContact.sigValid ⟨1, 1, true⟩ = false →
          (llarp_nodedb_async_verify [] ⟨1, 1, true⟩ true true).hookFired
            = true
          ∧ (llarp_nodedb_async_verify [] ⟨1, 1, true⟩ true true).hookValid
            = false)
      ∧ (RouterContact.sigValid ⟨1, 1, true⟩ = true →
          RouterContact.IsPublicRouter ⟨1, 1, true⟩ = true →
          (true && true) = false →
          (llarp_nodedb_async_verify [] ⟨1, 1, true⟩ true true).hookFired
            = true
          ∧ (llarp_nodedb_async_verify [] ⟨1, 1, true⟩ true true).hookValid
            = false)) := by
  have hinv : ∀ p r, alistFind ([] : Entries) p = some r →
      r.sigValid = true := by
    intro p r h
    simp [alistFind] at h
  exact ⟨hinv, async_verify_pipeline_ok [] ⟨1, 1, true⟩ true true hinv⟩

/-! ### DHT find-router handlers (src/llarp/dht/messages/findrouter.cpp)

`llarp::dht::Context` internals (`HandleExploritoryRouterLookup`,
`LookupRouterRelayed`, `Bucket::FindClosest`) live in dht/context.cpp,
outside src; their observable contributions are passed in as explicit
inputs, and the lookups they start are reported as side effects. -/

/-- A queued `GotRouterMessage(target, txid, rcs, false)` reply. -/
structure GotRouterReply where
  target : Nat
  txid : Nat
  found : List RouterContact
  deriving DecidableEq, Repr

/-- Lookup continuations a handler can start. -/
inductive DhtSideEffect
  | lookupRouterRelayed (requester : RouterID) (txid : Nat) (target : Nat)
      (recursive : Bool)
  | lookupRouterForPath (target : Nat) (txid : Nat) (pathID : PathID)
      (peer : Nat)
  deriving DecidableEq, Repr

/-- The slice of `llarp::dht::Context` the two handlers read. -/
structure DhtContext where
  ourKey : Nat
  allowTransit : Bool
  /-- `pendingRouterLookups` keys: the `(From, txid)` pairs with a pending
  lookup (`TXOwner`). -/
  pendingFromTxid : List (RouterID × Nat)
  nodedbEntries : Entries
  deriving DecidableEq, Repr

/-- Result triple: the handler's return value, the replies it queued and
the lookup it started. -/
structure DhtHandleResult where
  ok : Bool
  replies : List GotRouterReply
  effect : Option DhtSideEffect
  deriving DecidableEq, Repr

/-- `FindRouterMessage::HandleMessage` (findrouter.cpp:141-170).
`exploritoryResult` abstracts `dht.HandleExploritoryRouterLookup` and
`relayedReplies` the replies appended by `dht.LookupRouterRelayed`, both
defined outside src. -/
def FindRouterMessage_HandleMessage (ctx : DhtContext)
    (exploritoryResult : Bool × List GotRouterReply)
    (relayedReplies : List GotRouterReply)
    (From : RouterID) (K : Nat) (txid : Nat)
    (iterative exploritory : Bool) : DhtHandleResult :=
  if !ctx.allowTransit then ⟨false, [], none⟩
  else if ctx.pendingFromTxid.contains (From, txid) then ⟨false, [], none⟩
  else if exploritory then
    ⟨exploritoryResult.1, exploritoryResult.2, none⟩
  else
    match alistFind ctx.nodedbEntries K with
    | some found => ⟨true, [⟨K, txid, [found]⟩], none⟩
    | none =>
        ⟨true, relayedReplies,
          some (.lookupRouterRelayed From txid K (!iterative))⟩

/-- `RelayedFindRouterMessage::HandleMessage` (findrouter.cpp:12-45).
`pathFound` abstracts `pathContext().GetByUpstream(K, pathID) != nullptr`
and `closestPeer` abstracts `dht.nodes->FindClosest(k, peer)`. -/
def RelayedFindRouterMessage_HandleMessage (ctx : DhtContext)
    (pathFound : Bool) (ourRC : RouterContact) (closestPeer : Option Nat)
    (K : Nat) (txid : Nat) (pathID : PathID) : DhtHandleResult :=
  if K = ctx.ourKey then
    if pathFound then ⟨true, [⟨K, txid, [ourRC]⟩], none⟩
    else ⟨false, [], none⟩
  else
    match alistFind ctx.nodedbEntries K with
    | some found => ⟨true, [⟨K, txid, [found]⟩], none⟩
    | none =>
        match closestPeer with
        | some peer =>
            ⟨true, [], some (.lookupRouterForPath K txid pathID peer)⟩
        | none => ⟨true, [], none⟩

/-- C2 counterexample: the path-relayed variant never checks
`allowTransit`.  With transit disallowed, a relayed lookup for our own
key on a known path returns true and queues a reply, contradicting the
claim that both variants return false with no replies. -/
theorem relayed_find_router_ignores_transit_flag :
    (DhtContext.allowTransit ⟨7, false, [], []⟩ = false)
    ∧ RelayedFindRouterMessage_HandleMessage ⟨7, false, [], []⟩ true
        ⟨7, 1, true⟩ none 7 3 9
      = ⟨true, [⟨7, 3, [⟨7, 1, true⟩]⟩], none⟩ := by
  exact ⟨rfl, rfl⟩

/-- C2 amended: the direct `FindRouterMessage` handler returns false with
no replies and no started lookup when `allowTransit` is unset, and
likewise rejects a lookup whose `(From, txid)` pair matches a pending
lookup; the path-relayed variant performs no `allowTransit` check. -/
theorem find_router_transit_and_replay_guard (ctx : DhtContext)
    (exploritoryResult : Bool × List GotRouterReply)
    (relayedReplies : List GotRouterReply)
    (From : RouterID) (K : Nat) (txid : Nat) (iterative exploritory : Bool) :
    (ctx.allowTransit = false →
      FindRouterMessage_HandleMessage ctx exploritoryResult relayedReplies
        From K txid iterative exploritory = ⟨false, [], none⟩)
    ∧ (ctx.pendingFromTxid.contains (From, txid) = true →
      FindRouterMessage_HandleMessage ctx exploritoryResult relayedReplies
        From K txid iterative exploritory = ⟨false, [], none⟩) := by
  constructor
  · intro h
    unfold FindRouterMessage_HandleMessage
    rw [h]
    rfl
  · intro h
    unfold FindRouterMessage_HandleMessage
    by_cases ht : ctx.allowTransit = false
    · rw [ht]; rfl
    · have ht' : ctx.allowTransit = true := by
        cases hcase : ctx.allowTransit
        · exact absurd hcase ht
        · rfl
      rw [ht']
      simp only [Bool.not_true, Bool.false_eq_true, if_false, h, if_true]

/-- Concrete witness for `find_router_transit_and_replay_guard`: transit
disallowed, and a pending `(From, txid)` pair. -/
theorem find_router_transit_and_replay_guard_witness :
    (DhtContext.allowTransit ⟨7, false, [(2, 3)], []⟩ = false →
      FindRouterMessage_HandleMessage ⟨7, false, [(2, 3)], []⟩ (true, [])
        [] 2 5 3 false false = ⟨false, [], none⟩)
    ∧ (List.contains [(2, 3)] (2, 3) = true →
      FindRouterMessage_HandleMessage ⟨7, false, [(2, 3)], []⟩ (true, [])
        [] 2 5 3 false false = ⟨false, [], none⟩) :=
  find_router_transit_and_replay_guard ⟨7, false, [(2, 3)], []⟩ (true, [])
    [] 2 5 3 false false

/-! ### Router::SendToOrQueue (src/unnamed/part_002:255-316)

Link sessions and the link transport live outside src; whether any
inbound or the outbound link has a session to the peer are Boolean
inputs.  Encoded link messages are abstracted to naturals; the encode
step (`msg->BEncode`) may fail, hence an `Option`. -/

/-- A per-peer `MessageQueue` (a FIFO `std::queue`), front at the head. -/
abbrev MessageQueue := List Nat

abbrev OutboundQueues := List (RouterID × MessageQueue)

/-- `constexpr size_t MaxPendingSendQueueSize = 8` (part_002:255). -/
def MaxPendingSendQueueSize : Nat := 8

/-- Queue for a peer; a missing key reads as the empty queue. -/
def getQueue (m : OutboundQueues) (pk : RouterID) : MessageQueue :=
  (alistFind m pk).getD []

/-- Replace the queue stored under an existing key. -/
def setQueue (m : OutboundQueues) (pk : RouterID) (q : MessageQueue) :
    OutboundQueues :=
  alistUpdate m pk q

/-- `outboundMessageQueue.insert(make_pair(remote, MessageQueue()))` when
the key is absent (part_002:278-282). -/
def ensureQueue (m : OutboundQueues) (pk : RouterID) : OutboundQueues :=
  alistInsert m pk []

/-- What `SendToOrQueue` does after queueing in the no-session case. -/
inductive SendFollowUp
  | sentOnLink
  | tryConnect
  | dhtLookup
  deriving DecidableEq, Repr

/-- `Router::SendToOrQueue` (part_002:257-316).  With a session on some
inbound link or on the outbound link the message is sent directly.
Otherwise the encoded message is appended to the per-peer queue when it
holds fewer than `MaxPendingSendQueueSize` entries and dropped with a
warning otherwise; then a direct connect is tried when the RC is in the
NodeDB, else a DHT lookup is started. -/
def Router_SendToOrQueue (hasInboundSession hasOutboundSession : Bool)
    (obmq : OutboundQueues) (remote : RouterID) (encoded : Option Nat)
    (nodedbHasRemote : Bool) : OutboundQueues × Bool × SendFollowUp :=
  if hasInboundSession then (obmq, true, .sentOnLink)
  else if hasOutboundSession then (obmq, true, .sentOnLink)
  else
    let m1 := ensureQueue obmq remote
    match encoded with
    | none => (m1, false, .tryConnect)
    | some msg =>
        let q := getQueue m1 remote
        let m2 :=
          if q.length < MaxPendingSendQueueSize then
            setQueue m1 remote (q ++ [msg])
          else m1
        if nodedbHasRemote then (m2, true, .tryConnect)
        else (m2, true, .dhtLookup)

theorem getQueue_ensureQueue_self (m : OutboundQueues) (pk : RouterID) :
    getQueue (ensureQueue m pk) pk = getQueue m pk := by
  unfold getQueue ensureQueue alistInsert
  by_cases h : (m.find? (fun e => e.1 == pk)).isSome = true
  · rw [if_pos h]
  · rw [if_neg h, alistFind_append, alistFind_singleton]
    have hl : alistFind m pk = none := by
      simp only [alistFind]
      cases hf : m.find? (fun e => e.1 == pk) with
      | none => rfl
      | some e => rw [hf] at h; simp at h
    simp [hl]

theorem getQueue_ensureQueue_other (m : OutboundQueues) (pk pk' : RouterID) :
    getQueue (ensureQueue m pk) pk' = getQueue m pk'
    ∨ getQueue (ensureQueue m pk) pk' = [] := by
  unfold getQueue ensureQueue alistInsert
  by_cases h : (m.find? (fun e => e.1 == pk)).isSome = true
  · rw [if_pos h]; exact Or.inl rfl
  · rw [if_neg h, alistFind_append, alistFind_singleton]
    cases hf : alistFind m pk' with
    | some q => simp [hf]
    | none =>
      by_cases hk : pk = pk' <;> simp [hf, hk]

theorem getQueue_setQueue_self (m : OutboundQueues) (pk : RouterID)
    (q : MessageQueue) (hmem : (alistFind m pk).isSome = true) :
    getQueue (setQueue m pk q) pk = q := by
  unfold getQueue setQueue alistUpdate
  induction m with
  | nil => simp [alistFind] at hmem
  | cons e l ih =>
    by_cases he : e.1 = pk
    · have hb : (e.1 == pk) = true := by simpa using he
      simp [alistFind, List.find?, hb]
    · have hb : (e.1 == pk) = false := by simpa using he
      simp only [alistFind, List.find?, hb, List.map_cons, if_neg,
        Bool.false_eq_true, if_false] at *
      exact ih hmem

theorem getQueue_setQueue_other (m : OutboundQueues) (pk pk' : RouterID)
    (q : MessageQueue) (hne : pk ≠ pk') :
    getQueue (setQueue m pk q) pk' = getQueue m pk' := by
  unfold getQueue setQueue alistUpdate
  induction m with
  | nil => simp [alistFind]
  | cons e l ih =>
    by_cases he : e.1 = pk
    · have hb : (e.1 == pk) = true := by simpa using he
      have hb' : (e.1 == pk') = false := by
        subst he; simpa using hne
      simp [alistFind, List.find?, hb, hb']
      simpa [alistFind] using ih
    · have hb : (e.1 == pk) = false := by simpa using he
      by_cases he' : e.1 = pk'
      · have hb' : (e.1 == pk') = true := by simpa using he'
        simp [alistFind, List.find?, hb, hb']
      · have hb' : (e.1 == pk') = false := by simpa using he'
        simp only [alistFind, List.find?, List.map_cons, hb, hb',
          Bool.false_eq_true, if_false] at *
        exact ih

/-- C3: with no link session to the peer, `SendToOrQueue` keeps every
per-peer queue at or below 8 encoded messages; when the peer's queue
already holds 8 the new message is dropped and the queue is unchanged,
and when it holds fewer than 8 exactly one encoded message is appended at
the back. -/
theorem send_to_or_queue_cap (obmq : OutboundQueues) (remote : RouterID)
    (msg : Nat) (nodedbHasRemote : Bool)
    (hcap : ∀ pk, (getQueue obmq pk).length ≤ MaxPendingSendQueueSize) :
    (∀ pk,
      (getQueue (Router_SendToOrQueue false false obmq remote (some msg)
          nodedbHasRemote).1 pk).length ≤ MaxPendingSendQueueSize)
    ∧ ((getQueue obmq remote).length = MaxPendingSendQueueSize →
        getQueue (Router_SendToOrQueue false false obmq remote (some msg)
          nodedbHasRemote).1 remote = getQueue obmq remote)
    ∧ ((getQueue obmq remote).length < MaxPendingSendQueueSize →
        getQueue (Router_SendToOrQueue false false obmq remote (some msg)
          nodedbHasRemote).1 remote = getQueue obmq remote ++ [msg]) := by
  have hm1self : getQueue (ensureQueue obmq remote) remote
      = getQueue obmq remote := getQueue_ensureQueue_self obmq remote
  have hmem : (alistFind (ensureQueue obmq remote) remote).isSome = true :=
    alistFind_insert_self obmq remote []
  have hres : (Router_SendToOrQueue false false obmq remote (some msg)
      nodedbHasRemote).1 =
      (if (getQueue (ensureQueue obmq remote) remote).length
          < MaxPendingSendQueueSize then
        setQueue (ensureQueue obmq remote) remote
          (getQueue (ensureQueue obmq remote) remote ++ [msg])
      else ensureQueue obmq remote) := by
    cases nodedbHasRemote <;> rfl
  by_cases hlt :
      (getQueue (ensureQueue obmq remote) remote).length
        < MaxPendingSendQueueSize
  · rw [hres, if_pos hlt]
    have hself :
        getQueue (setQueue (ensureQueue obmq remote) remote
          (getQueue (ensureQueue obmq remote) remote ++ [msg])) remote
        = getQueue (ensureQueue obmq remote) remote ++ [msg] :=
      getQueue_setQueue_self _ _ _ hmem
    refine ⟨?_, ?_, ?_⟩
    · intro pk
      by_cases hp : remote = pk
      · subst hp
        rw [hself, List.length_append, hm1self]
        have := hlt
        rw [hm1self] at this
        simpa using Nat.succ_le_of_lt this
      · rw [getQueue_setQueue_other _ _ _ _ hp]
        rcases getQueue_ensureQueue_other obmq remote pk with h | h
        · rw [h]; exact hcap pk
        · rw [h]; exact Nat.zero_le _
    · intro h8
      rw [hm1self, h8] at hlt
      exact absurd hlt (lt_irrefl _)
    · intro _
      rw [hself, hm1self]
  · rw [hres, if_neg hlt]
    rw [hm1self] at hlt
    refine ⟨?_, ?_, ?_⟩
    · intro pk
      rcases getQueue_ensureQueue_other obmq remote pk with h | h
      · rw [h]; exact hcap pk
      · rw [h]; exact Nat.zero_le _
    · intro _; exact hm1self
    · intro hc; exact absurd hc hlt

/-- Concrete witness for `send_to_or_queue_cap`: a peer whose queue
already holds three messages. -/
theorem send_to_or_queue_cap_witness :
    (∀ pk, (getQueue [(4, [10, 11, 12])] pk).length
      ≤ MaxPendingSendQueueSize)
    ∧ ((∀ pk,
        (getQueue (Router_SendToOrQueue false false [(4, [10, 11, 12])] 4
            (some 13) true).1 pk).length ≤ MaxPendingSendQueueSize)
      ∧ ((getQueue [(4, [10, 11, 12])] 4).length = MaxPendingSendQueueSize →
          getQueue (Router_SendToOrQueue false false [(4, [10, 11, 12])] 4
            (some 13) true).1 4 = getQueue [(4, [10, 11, 12])] 4)
      ∧ ((getQueue [(4, [10, 11, 12])] 4).length < MaxPendingSendQueueSize →
          getQueue (Router_SendToOrQueue false false [(4, [10, 11, 12])] 4
            (some 13) true).1 4 = getQueue [(4, [10, 11, 12])] 4 ++ [13])) := by
  have hcap : ∀ pk, (getQueue [(4, [10, 11, 12])] pk).length
      ≤ MaxPendingSendQueueSize := by
    intro pk
    by_cases h : pk = 4
    · subst h; decide
    · have hb : ((4 : Nat) == pk) = false := by
        simp [Ne.symm h]
      simp [getQueue, alistFind, List.find?, hb, MaxPendingSendQueueSize]
  exact ⟨hcap, send_to_or_queue_cap [(4, [10, 11, 12])] 4 13 true hcap⟩

/-! ### PathContext transit indices (src/unnamed/part_003)

`m_TransitPaths` is a multimap `PathID → shared_ptr<TransitHop>`; the
embedding keeps the pairs in insertion order, and `equal_range`
enumerates the pairs with the given key in that order.  `m_OurPaths`
maps `PathID → PathSet*`; what `PathSet::GetByUpstream` returns for an
own path is abstract (`Option Nat`, `none` for nullptr). -/

structure TransitHopInfo where
  txID : PathID
  rxID : PathID
  upstream : RouterID
  downstream : RouterID
  deriving DecidableEq, Repr

/-- A `TransitHop`; `hopId` stands for the shared-pointer identity. -/
structure TransitHop where
  hopId : Nat
  info : TransitHopInfo
  deriving DecidableEq, Repr

abbrev TransitMap := List (PathID × TransitHop)

/-- `MapPut` (part_003:105-111): multimap insert, appended at the end. -/
def mapPutTransit (m : TransitMap) (k : PathID) (h : TransitHop) :
    TransitMap :=
  m ++ [(k, h)]

/-- `PathContext::PutTransitHop` (part_003:242-247): index the hop under
both its `txID` and its `rxID`. -/
def PutTransitHop (m : TransitMap) (h : TransitHop) : TransitMap :=
  mapPutTransit (mapPutTransit m h.info.txID h) h.info.rxID h

/-- `MapGet` (part_003:76-89): first entry in the key's `equal_range`
passing `check`. -/
def mapGetTransit (m : TransitMap) (k : PathID)
    (check : TransitHop → Bool) : Option TransitHop :=
  ((m.filter (fun e => e.1 == k)).find? (fun e => check e.2)).map (·.2)

/-- `m_OurPaths`: for each PathID key, the abstract result of
`PathSet::GetByUpstream` on that set (`none` = nullptr). -/
abbrev OwnPathMap := List (PathID × Option Nat)

/-- First `m_OurPaths` entry under `id`, flattened: `MapGet` with an
always-true check returns `p->GetByUpstream(remote, id)` of the first
entry, and a null result falls through to the transit map. -/
def ownPathsGet (own : OwnPathMap) (id : PathID) : Option Nat :=
  match (own.filter (fun e => e.1 == id)).head? with
  | some e => e.2
  | none => none

/-- Result of `GetByUpstream` / `GetByDownstream` (`IHopHandler*`). -/
inductive HopHandler
  | ownPath (r : Nat)
  | transit (h : TransitHop)
  deriving DecidableEq, Repr

/-- `PathContext::GetByUpstream` (part_003:154-175): own paths first,
then the transit hops whose `info.upstream` matches. -/
def GetByUpstream (own : OwnPathMap) (m : TransitMap) (remote : RouterID)
    (id : PathID) : Option HopHandler :=
  match ownPathsGet own id with
  | some r => some (.ownPath r)
  | none =>
      (mapGetTransit m id (fun h => h.info.upstream == remote)).map
        .transit

/-- `PathContext::GetByDownstream` (part_003:188-198): transit hops whose
`info.downstream` matches. -/
def GetByDownstream (m : TransitMap) (remote : RouterID) (id : PathID) :
    Option HopHandler :=
  (mapGetTransit m id (fun h => h.info.downstream == remote)).map .transit

/-- C4 counterexample: a transit hop inserted earlier under the same
`txID` with the same upstream shadows the new hop in the multimap, so
`GetByUpstream` returns the older hop, not `h`. -/
theorem put_transit_hop_shadowed_counterexample :
    GetByUpstream [] (PutTransitHop (PutTransitHop []
        ⟨2, ⟨10, 11, 5, 6⟩⟩) ⟨1, ⟨10, 12, 5, 6⟩⟩) 5 10
      = some (.transit ⟨2, ⟨10, 11, 5, 6⟩⟩)
    ∧ (⟨2, ⟨10, 11, 5, 6⟩⟩ : TransitHop) ≠ ⟨1, ⟨10, 12, 5, 6⟩⟩ := by
  constructor
  · rfl
  · decide

/-- C4 amended: after `PutTransitHop(h)` the hop is indexed under both
`h.info.txID` and `h.info.rxID`; and provided no own path is registered
under the `txID` key and no transit entry was previously stored under
`h.info.txID` or `h.info.rxID`, `GetByUpstream(h.info.upstream,
h.info.txID)` and `GetByDownstream(h.info.downstream, h.info.rxID)` both
return `h`. -/
theorem put_transit_hop_indexes (own : OwnPathMap) (m : TransitMap)
    (h : TransitHop)
    (hfresh : ∀ e ∈ m, e.1 ≠ h.info.txID ∧ e.1 ≠ h.info.rxID)
    (hown : ownPathsGet own h.info.txID = none) :
    ((h.info.txID, h) ∈ PutTransitHop m h
      ∧ (h.info.rxID, h) ∈ PutTransitHop m h)
    ∧ GetByUpstream own (PutTransitHop m h) h.info.upstream h.info.txID
        = some (.transit h)
    ∧ GetByDownstream (PutTransitHop m h) h.info.downstream h.info.rxID
        = some (.transit h) := by
  have hftx : m.filter (fun e => e.1 == h.info.txID) = [] := by
    rw [List.filter_eq_nil_iff]
    intro e he
    simpa using (hfresh e he).1
  have hfrx : m.filter (fun e => e.1 == h.info.rxID) = [] := by
    rw [List.filter_eq_nil_iff]
    intro e he
    simpa using (hfresh e he).2
  refine ⟨⟨?_, ?_⟩, ?_, ?_⟩
  · simp [PutTransitHop, mapPutTransit]
  · simp [PutTransitHop, mapPutTransit]
  · unfold GetByUpstream
    rw [hown]
    unfold mapGetTransit PutTransitHop mapPutTransit
    rw [List.filter_append, List.filter_append, hftx]
    by_cases hrt : h.info.rxID = h.info.txID
    · simp [List.filter, hrt, List.find?]
    · have hb : (h.info.rxID == h.info.txID) = false := by simpa using hrt
      simp [List.filter, hb, List.find?]
  · unfold GetByDownstream
    unfold mapGetTransit PutTransitHop mapPutTransit
    rw [List.filter_append, List.filter_append, hfrx]
    by_cases htr : h.info.txID = h.info.rxID
    · simp [List.filter, htr, List.find?]
    · have hb : (h.info.txID == h.info.rxID) = false := by simpa using htr
      simp [List.filter, hb, List.find?]

/-- Concrete witness for `put_transit_hop_indexes`: a fresh hop inserted
into an empty transit map with no own paths. -/
theorem put_transit_hop_indexes_witness :
    ((∀ e ∈ ([] : TransitMap), e.1 ≠ 10 ∧ e.1 ≠ 11)
      ∧ ownPathsGet [] 10 = none)
    ∧ (((10, (⟨1, ⟨10, 11, 5, 6⟩⟩ : TransitHop))
          ∈ PutTransitHop [] ⟨1, ⟨10, 11, 5, 6⟩⟩
        ∧ ((11, (⟨1, ⟨10, 11, 5, 6⟩⟩ : TransitHop))
          ∈ PutTransitHop [] ⟨1, ⟨10, 11, 5, 6⟩⟩))
      ∧ GetByUpstream [] (PutTransitHop [] ⟨1, ⟨10, 11, 5, 6⟩⟩) 5 10
          = some (.transit ⟨1, ⟨10, 11, 5, 6⟩⟩)
      ∧ GetByDownstream (PutTransitHop [] ⟨1, ⟨10, 11, 5, 6⟩⟩) 6 11
          = some (.transit ⟨1, ⟨10, 11, 5, 6⟩⟩)) := by
  have hfresh : ∀ e ∈ ([] : TransitMap), e.1 ≠ 10 ∧ e.1 ≠ 11 := by
    intro e he
    simp at he
  exact ⟨⟨hfresh, rfl⟩,
    put_transit_hop_indexes [] [] ⟨1, ⟨10, 11, 5, 6⟩⟩ hfresh rfl⟩

/-! ### NodeDB random hop selection (src/unnamed/part_001:390-437)

`llarp::randint()` draws are an explicit stream `rnd : Nat → Nat`
indexed by iteration.  The `entries` map is iterated in its stored
order; only the RC values matter here. -/

/-- Iterator position reached by part_001:404-409 / 427-432:
`idx = randint() % sz; if(idx) std::advance(itr, idx - 1)`. -/
def pickPos (sz : Nat) (r : Nat) : Nat :=
  if r % sz ≠ 0 then r % sz - 1 else 0

/-- The RC at the reached position (`sz > 1` guards the draw). -/
def pickEntry (entries : List RouterContact) (r : Nat) : RouterContact :=
  if entries.length > 1 then entries.getD (pickPos entries.length r) default
  else entries.getD 0 default

/-- The `do … while(tries--)` loop of `select_random_hop` for `N > 0`
(part_001:400-423), with C post-decrement semantics: on a pick equal to
`prev` or a pick without addresses the loop continues only when the old
`tries` was nonzero. -/
def select_hop_loop (entries : List RouterContact) (prev : RouterContact)
    (rnd : Nat → Nat) : Nat → Nat → Option RouterContact
  | tries, i =>
    let e := pickEntry entries (rnd i)
    if e.pubkey = prev.pubkey then
      match tries with
      | 0 => none
      | t + 1 => select_hop_loop entries prev rnd t (i + 1)
    else if e.addrsCount ≠ 0 then some e
    else
      match tries with
      | 0 => none
      | t + 1 => select_hop_loop entries prev rnd t (i + 1)

/-- `llarp_nodedb::select_random_hop` (part_001:390-437). -/
def select_random_hop (entries : List RouterContact)
    (prev : RouterContact) (rnd : Nat → Nat) (N : Nat) :
    Option RouterContact :=
  if entries.length < 3 then none
  else if N ≠ 0 then select_hop_loop entries prev rnd 5 0
  else some (pickEntry entries (rnd 0))

/-- Three distinct public RCs, each with one address. -/
def rc1C5 : RouterContact := ⟨1, 1, true⟩
def rc2C5 : RouterContact := ⟨2, 1, true⟩
def rc3C5 : RouterContact := ⟨3, 1, true⟩
def entriesC5 : List RouterContact := [rc1C5, rc2C5, rc3C5]
/-- A previous hop not in the database. -/
def prevC5 : RouterContact := ⟨9, 1, true⟩

/-- C5: the selection is NOT uniform.  The draw `idx = randint() % sz`
is followed by `advance(itr, idx - 1)`, so over the three residues the
reached positions are `[0, 0, 1]`: the last entry is never selected (for
any draw) and the first is selected twice as often.  The `< 3` rejection
is also evaluated. -/
theorem select_random_hop_not_uniform :
    select_random_hop [rc1C5, rc2C5] prevC5 (fun _ => 0) 1 = none
    ∧ (List.range 3).map
        (fun r => select_random_hop entriesC5 prevC5 (fun _ => r) 1)
      = [some rc1C5, some rc1C5, some rc2C5]
    ∧ ∀ r, select_random_hop entriesC5 prevC5 (fun _ => r) 1
        ≠ some rc3C5 := by
  refine ⟨rfl, by decide, ?_⟩
  intro r
  have h3 : r % 3 = 0 ∨ r % 3 = 1 ∨ r % 3 = 2 := by omega
  rcases h3 with h | h | h <;>
    simp [select_random_hop, select_hop_loop, pickEntry, pickPos,
      entriesC5, rc1C5, rc2C5, rc3C5, prevC5, h]

/-! ### Path state machine (src/unnamed/part_003:417-533)

The fields of `llarp::path::Path` that `Tick`, `Expired` and `EnterState`
read.  Role checks are reduced to the one disjunction `Tick` performs,
`SupportsAnyRoles(ePathRoleExit | ePathRoleSVC)`.  The owner's optional
`m_CheckForDead` predicate is abstracted to the value it returns
(`none` = no predicate registered). -/

inductive PathStatus
  | building
  | established
  | timedOut
  | expired
  deriving DecidableEq, Repr

/-- Modelled from the spec: `PATH_BUILD_TIMEOUT` is defined in path.hpp
(outside src); the spec gives the default 30 s. -/
def PATH_BUILD_TIMEOUT : Time := 30000

/-- Modelled from the spec: `PATH_ALIVE_TIMEOUT` is defined in path.hpp
(outside src); the spec gives the default 60 s. -/
def PATH_ALIVE_TIMEOUT : Time := 60000

structure PathState where
  status : PathStatus
  buildStarted : Time
  introExpiresAt : Time
  /-- `m_LastRecvMessage`; 0 = no message ever received. -/
  lastRecvMessage : Time
  lastLatencyTestTime : Time
  lastLatencyTestID : Nat
  /-- `SupportsAnyRoles(ePathRoleExit | ePathRoleSVC)`. -/
  supportsExitOrSVC : Bool
  /-- Result of the registered `m_CheckForDead`; `none` = unregistered. -/
  checkForDead : Option Bool
  deriving DecidableEq, Repr

/-- Modelled from the spec: `Path::ExpireTime` is defined outside src;
per the spec a path expires at the intro expiry. -/
def Path_ExpireTime (p : PathState) : Time :=
  p.introExpiresAt

/-- `Path::Expired` (part_003:524-533). -/
def Path_Expired (p : PathState) (now : Time) : Bool :=
  if p.status = .established then decide (Path_ExpireTime p ≤ now)
  else if p.status = .building then false
  else true

/-- `Path::EnterState` (part_003:417-434), reduced to the `_status`
assignment (the build-timeout hand-off to the PathSet is external). -/
def Path_enterState (p : PathState) (st : PathStatus) : PathState :=
  { p with status := st }

/-- The latency-probe block of `Path::Tick` (part_003:456-464): when more
than 5 s passed since the last probe and no probe is outstanding, a new
`PathLatencyMessage` with a fresh random id is sent. -/
def Path_maybeSendLatencyProbe (p : PathState) (now : Time) (rnd : Nat) :
    PathState :=
  if 5000 < now - p.lastLatencyTestTime ∧ p.lastLatencyTestID = 0 then
    { p with lastLatencyTestID := rnd, lastLatencyTestTime := now }
  else p

/-- The dead-path check of `Path::Tick` (part_003:465-501), applied to
the state `q` after the probe block, with `dlt` computed before it.
Note the Exit/SVC stale branch (lines 468-478) returns without entering
Timeout: the transition there is commented out in the source. -/
def Path_deadCheck (now : Time) (dlt : Time)
    (q : PathState) : PathState :=
  if q.status = .established then
    if q.supportsExitOrSVC = true ∧ q.lastRecvMessage ≠ 0
        ∧ q.lastRecvMessage < now
        ∧ PATH_ALIVE_TIMEOUT < now - q.lastRecvMessage then q
    else if q.lastRecvMessage ≠ 0 ∧ q.lastRecvMessage < now
        ∧ PATH_ALIVE_TIMEOUT < now - q.lastRecvMessage then
      match q.checkForDead with
      | some b => if b then Path_enterState q .timedOut else q
      | none => Path_enterState q .timedOut
    else if 10000 ≤ dlt ∧ q.lastRecvMessage = 0 then
      Path_enterState q .timedOut
    else q
  else q

/-- `Path::Tick` (part_003:436-502): no-op when already expired; a
building path times out after `PATH_BUILD_TIMEOUT`; otherwise the probe
block runs and then the dead-path check. -/
def Path_Tick (p : PathState) (now : Time) (rnd : Nat) : PathState :=
  if Path_Expired p now then p
  else if p.status = .building ∧ p.buildStarted ≤ now
      ∧ PATH_BUILD_TIMEOUT ≤ now - p.buildStarted then
    Path_enterState p .timedOut
  else
    Path_deadCheck now (now - p.lastLatencyTestTime)
      (Path_maybeSendLatencyProbe p now rnd)

theorem probe_preserves_fields (p : PathState) (now : Time) (rnd : Nat) :
    (Path_maybeSendLatencyProbe p now rnd).status = p.status
    ∧ (Path_maybeSendLatencyProbe p now rnd).lastRecvMessage
        = p.lastRecvMessage
    ∧ (Path_maybeSendLatencyProbe p now rnd).supportsExitOrSVC
        = p.supportsExitOrSVC
    ∧ (Path_maybeSendLatencyProbe p now rnd).checkForDead
        = p.checkForDead := by
  unfold Path_maybeSendLatencyProbe
  split <;> exact ⟨rfl, rfl, rfl, rfl⟩

/-- An Exit-role established path, one message seen at t=1ms, probed at
t=1ms with an outstanding probe id, intro expiring far in the future. -/
def pathExitC7 : PathState :=
  ⟨.established, 0, 1000000, 1, 1, 7, true, none⟩

/-- The identical path without the Exit/SVC role. -/
def pathPlainC7 : PathState :=
  ⟨.established, 0, 1000000, 1, 1, 7, false, none⟩

/-- C7 counterexample: at `now = 70001` the last message is 70000 ms old
(beyond `PATH_ALIVE_TIMEOUT`), no `CheckForDead` is registered and the
path is not expired, yet the Exit-role path stays Established after
`Tick` while the same path without the role transitions to Timeout. -/
theorem path_tick_exit_role_no_timeout :
    Path_Expired pathExitC7 70001 = false
    ∧ pathExitC7.lastRecvMessage ≠ 0
    ∧ PATH_ALIVE_TIMEOUT < 70001 - pathExitC7.lastRecvMessage
    ∧ pathExitC7.checkForDead = none
    ∧ (Path_Tick pathExitC7 70001 0).status = .established
    ∧ (Path_Tick pathPlainC7 70001 0).status = .timedOut := by
  refine ⟨rfl, by decide, by decide, rfl, ?_, ?_⟩ <;> rfl

/-- C7 amended: for an Established, unexpired path, `Tick` transitions to
Timeout when the path does not support the Exit or ServiceEndpoint role,
no message has been seen for more than `PATH_ALIVE_TIMEOUT` and the
`CheckForDead` predicate returns true or is unregistered; it also
transitions when no message at all was received and at least 10 s passed
since the last latency probe; but a path supporting Exit or
ServiceEndpoint stays Established in the stale case (the transition is
commented out in the source). -/
theorem path_tick_dead_check (p : PathState) (now : Time) (rnd : Nat)
    (hest : p.status = .established)
    (hnotexp : Path_Expired p now = false) :
    (p.supportsExitOrSVC = false → p.lastRecvMessage ≠ 0 →
      p.lastRecvMessage < now →
      PATH_ALIVE_TIMEOUT < now - p.lastRecvMessage →
      (p.checkForDead = none ∨ p.checkForDead = some true) →
      (Path_Tick p now rnd).status = .timedOut)
    ∧ (p.lastRecvMessage = 0 → 10000 ≤ now - p.lastLatencyTestTime →
      (Path_Tick p now rnd).status = .timedOut)
    ∧ (p.supportsExitOrSVC = true → p.lastRecvMessage ≠ 0 →
      p.lastRecvMessage < now →
      PATH_ALIVE_TIMEOUT < now - p.lastRecvMessage →
      (Path_Tick p now rnd).status = .established) := by
  obtain ⟨hs, hr, hx, hd⟩ := probe_preserves_fields p now rnd
  have hbuild : ¬(p.status = .building ∧ p.buildStarted ≤ now
      ∧ PATH_BUILD_TIMEOUT ≤ now - p.buildStarted) := by
    rintro ⟨hb, -, -⟩
    rw [hest] at hb
    cases hb
  have htick : Path_Tick p now rnd =
      Path_deadCheck now (now - p.lastLatencyTestTime)
        (Path_maybeSendLatencyProbe p now rnd) := by
    unfold Path_Tick
    rw [if_neg (by simp [hnotexp]), if_neg hbuild]
  have hqest : (Path_maybeSendLatencyProbe p now rnd).status
      = .established := by rw [hs, hest]
  refine ⟨?_, ?_, ?_⟩
  · intro hnoexit hrecv hlt hstale hdead
    rw [htick]
    unfold Path_deadCheck
    rw [if_pos hqest]
    rw [if_neg (by rw [hx, hnoexit]; rintro ⟨hcontra, -⟩; cases hcontra)]
    rw [if_pos (by rw [hr]; exact ⟨hrecv, hlt, hstale⟩)]
    rw [hd]
    rcases hdead with hnone | htrue
    · rw [hnone]
      rfl
    · rw [htrue]
      rfl
  · intro hzero hten
    rw [htick]
    unfold Path_deadCheck
    rw [if_pos hqest]
    rw [if_neg (by rw [hr, hzero]; rintro ⟨-, hcontra, -⟩; exact hcontra rfl)]
    rw [if_neg (by rw [hr, hzero]; rintro ⟨hcontra, -⟩; exact hcontra rfl)]
    rw [if_pos (by rw [hr]; exact ⟨hten, hzero⟩)]
    rfl
  · intro hexit hrecv hlt hstale
    rw [htick]
    unfold Path_deadCheck
    rw [if_pos hqest]
    rw [if_pos (by rw [hx, hr]; exact ⟨hexit, hrecv, hlt, hstale⟩)]
    exact hqest

/-- Concrete witness for `path_tick_dead_check`: the two paths of the
counterexample state, plus a fresh established path with no message. -/
theorem path_tick_dead_check_witness :
    (PathState.status pathPlainC7 = .established
      ∧ Path_Expired pathPlainC7 70001 = false)
    ∧ (Path_Tick pathPlainC7 70001 0).status = .timedOut := by
  have h := path_tick_dead_check pathPlainC7 70001 0 rfl rfl
  exact ⟨⟨rfl, rfl⟩,
    h.1 rfl (by decide) (by decide) (by decide) (Or.inl rfl)⟩

/-- C10: `Path::Expired` is false for every Building path regardless of
`now`, equals `now ≥ ExpireTime()` for an Established path, and is true
in every other status, so Timeout and Expired paths count as expired
immediately. -/
theorem path_expired_by_status (p : PathState) (now : Time) :
    (p.status = .building → Path_Expired p now = false)
    ∧ (p.status = .established →
        (Path_Expired p now = true ↔ Path_ExpireTime p ≤ now))
    ∧ (p.status = .timedOut ∨ p.status = .expired →
        Path_Expired p now = true) := by
  refine ⟨?_, ?_, ?_⟩
  · intro hb
    unfold Path_Expired
    rw [if_neg (by rw [hb]; rintro hcontra; cases hcontra), if_pos hb]
  · intro he
    unfold Path_Expired
    rw [if_pos he]
    simp
  · intro hor
    unfold Path_Expired
    rcases hor with h | h <;>
      rw [if_neg (by rw [h]; rintro hcontra; cases hcontra),
        if_neg (by rw [h]; rintro hcontra; cases hcontra)]

/-- Concrete witness for `path_expired_by_status`: a building, an
established and a timed-out path. -/
theorem path_expired_by_status_witness :
    Path_Expired ⟨.building, 0, 50, 0, 0, 0, false, none⟩ 99 = false
    ∧ (Path_Expired ⟨.established, 0, 50, 0, 0, 0, false, none⟩ 99 = true
        ↔ Path_ExpireTime ⟨.established, 0, 50, 0, 0, 0, false, none⟩ ≤ 99)
    ∧ Path_Expired ⟨.timedOut, 0, 50, 0, 0, 0, false, none⟩ 0 = true :=
  ⟨(path_expired_by_status ⟨.building, 0, 50, 0, 0, 0, false, none⟩ 99).1
      rfl,
    (path_expired_by_status
      ⟨.established, 0, 50, 0, 0, 0, false, none⟩ 99).2.1 rfl,
    (path_expired_by_status ⟨.timedOut, 0, 50, 0, 0, 0, false, none⟩ 0).2.2
      (Or.inl rfl)⟩

/-! ### Router::CheckRenegotiateValid (src/unnamed/part_002:672-696) -/

/-- The router state the renegotiation check mutates. -/
structure RouterState where
  nodedbEntries : Entries
  dhtNodes : List (PubKey × RouterContact)
  validRouters : List (PubKey × RouterContact)
  deriving DecidableEq, Repr

/-- Modelled from the spec: `Bucket::PutNode` (dht, outside src) stores
the RC in the bucket under its RouterID, replacing an existing node. -/
def dht_PutNode (ns : List (PubKey × RouterContact))
    (rc : RouterContact) : List (PubKey × RouterContact) :=
  if (ns.find? (fun e => e.1 == rc.pubkey)).isSome then
    alistUpdate ns rc.pubkey rc
  else ns ++ [(rc.pubkey, rc)]

/-- The `validRouters` update of part_002:687-693: assign through the
iterator when present, `operator[]`-insert otherwise. -/
def upsertValidRouter (vs : List (PubKey × RouterContact))
    (rc : RouterContact) : List (PubKey × RouterContact) :=
  if (vs.find? (fun e => e.1 == rc.pubkey)).isSome then
    alistUpdate vs rc.pubkey rc
  else vs ++ [(rc.pubkey, rc)]

/-- `Router::CheckRenegotiateValid` (part_002:672-696): reject on
identity mismatch; otherwise store `newrc` into the NodeDB
(`InsertAsync`, which commits to `entries`), refresh the DHT node when
present, upsert `validRouters`, and return true.  No signature
verification happens anywhere on this path. -/
def Router_CheckRenegotiateValid (st : RouterState)
    (newrc oldrc : RouterContact) : RouterState × Bool :=
  if newrc.pubkey ≠ oldrc.pubkey then (st, false)
  else
    ({ nodedbEntries := alistInsert st.nodedbEntries newrc.pubkey newrc,
       dhtNodes :=
         if (st.dhtNodes.find? (fun e => e.1 == newrc.pubkey)).isSome then
           dht_PutNode st.dhtNodes newrc
         else st.dhtNodes,
       validRouters := upsertValidRouter st.validRouters newrc }, true)

/-- The previously adopted RC for pubkey 5, and a renegotiated RC for
the same identity whose signature does NOT verify. -/
def oldRC8 : RouterContact := ⟨5, 1, true⟩
def badNewRC8 : RouterContact := ⟨5, 1, false⟩

/-- C8: identity mismatch is rejected, but an RC with an invalid
signature and a matching identity is adopted: the call returns true and
`validRouters[5]` becomes the unverified RC.  This evaluates the code at
the failing input of the claim. -/
theorem renegotiate_adopts_unverified_rc :
    (Router_CheckRenegotiateValid ⟨[], [], []⟩ ⟨6, 1, true⟩ oldRC8).2
      = false
    ∧ badNewRC8.sigValid = false
    ∧ (Router_CheckRenegotiateValid
        ⟨[(5, oldRC8)], [], [(5, oldRC8)]⟩ badNewRC8 oldRC8).2 = true
    ∧ alistFind (Router_CheckRenegotiateValid
        ⟨[(5, oldRC8)], [], [(5, oldRC8)]⟩ badNewRC8 oldRC8).1.validRouters
        5 = some badNewRC8 := by
  decide

/-! ### Pending connect jobs (src/unnamed/part_002)

`pendingEstablishJobs : PubKey → TryConnectJob`; only the `triesLeft`
counter of a job matters to the claim. -/

abbrev PendingJobs := List (PubKey × Nat)

/-- `Router::HasPendingConnectJob` (part_002:1342-1346). -/
def HasPendingConnectJob (jobs : PendingJobs) (pk : PubKey) : Bool :=
  (jobs.find? (fun e => e.1 == pk)).isSome

/-- `llarp_router_try_connect` (part_002:101-121): refuse when a pending
job exists, otherwise insert a job carrying `numretries` tries and
schedule its first `Attempt`. -/
def llarp_router_try_connect (jobs : PendingJobs) (pk : PubKey)
    (numretries : Nat) : PendingJobs × Bool :=
  if HasPendingConnectJob jobs pk then (jobs, false)
  else (jobs ++ [(pk, numretries)], true)

/-- `TryConnectJob::Attempt` (part_002:78-85): `--triesLeft`, then the
link-layer establish attempt (external). -/
def TryConnectJob_Attempt (jobs : PendingJobs) (pk : PubKey) :
    PendingJobs :=
  alistUpdate jobs pk (((alistFind jobs pk).getD 1) - 1)

/-- `TryConnectJob::AttemptTimedout` (part_002:60-76), reached through
`Router::OnConnectTimeout` (part_002:607-615): retry while
`triesLeft > 0`, otherwise erase the pending job. -/
def TryConnectJob_AttemptTimedout (jobs : PendingJobs) (pk : PubKey) :
    PendingJobs :=
  match alistFind jobs pk with
  | none => jobs
  | some 0 => alistErase jobs pk
  | some (_ + 1) => TryConnectJob_Attempt jobs pk

/-- The `pendingEstablishJobs` effect of `Router::FlushOutboundFor`
(part_002:862-889): every branch erases the pending job. -/
def Router_FlushOutboundFor (jobs : PendingJobs) (pk : PubKey) :
    PendingJobs :=
  alistErase jobs pk

/-- The events acting on `pendingEstablishJobs` named by the claim. -/
inductive ConnEvent
  | tryConnect (pk : PubKey) (tries : Nat)
  | attempt (pk : PubKey)
  | timedout (pk : PubKey)
  | flush (pk : PubKey)
  deriving DecidableEq, Repr

def connStep (jobs : PendingJobs) : ConnEvent → PendingJobs
  | .tryConnect pk tries => (llarp_router_try_connect jobs pk tries).1
  | .attempt pk => TryConnectJob_Attempt jobs pk
  | .timedout pk => TryConnectJob_AttemptTimedout jobs pk
  | .flush pk => Router_FlushOutboundFor jobs pk

/-- Does this event erase the pending job for `pk` in state `jobs`? -/
def erasesJob (jobs : PendingJobs) (pk : PubKey) : ConnEvent → Bool
  | .flush q => q == pk
  | .timedout q => q == pk && (alistFind jobs q == some 0)
  | _ => false

theorem hasPending_eq_isSome (jobs : PendingJobs) (pk : PubKey) :
    HasPendingConnectJob jobs pk = (alistFind jobs pk).isSome := by
  unfold HasPendingConnectJob alistFind
  cases jobs.find? (fun e => e.1 == pk) <;> rfl

theorem isSome_option_map {α β : Type} (f : α → β) (o : Option α) :
    (o.map f).isSome = o.isSome := by
  cases o <;> rfl

theorem find?_cons_pos {α : Type} (p : α → Bool) (a : α) (l : List α)
    (h : p a = true) : List.find? p (a :: l) = some a := by
  simp [List.find?, h]

theorem find?_cons_neg {α : Type} (p : α → Bool) (a : α) (l : List α)
    (h : p a = false) : List.find? p (a :: l) = List.find? p l := by
  simp [List.find?, h]

theorem bool_eq_false {b : Bool} (h : ¬b = true) : b = false :=
  Bool.eq_false_iff.mpr h

theorem find?_map_update_isSome {α : Type} (q pk : Nat) (v : α)
    (l : List (Nat × α)) :
    (List.find? (fun e => e.1 == pk)
      (l.map (fun e => if e.1 == q then (e.1, v) else e))).isSome
    = (List.find? (fun e => e.1 == pk) l).isSome := by
  induction l with
  | nil => rfl
  | cons e l ih =>
    simp only [List.map_cons]
    by_cases hq : (e.1 == q) = true
    · rw [if_pos hq]
      by_cases hp : (e.1 == pk) = true
      · rw [find?_cons_pos (fun e => e.1 == pk) (e.1, v) _ hp,
          find?_cons_pos (fun e => e.1 == pk) e l hp]
        rfl
      · rw [find?_cons_neg (fun e => e.1 == pk) (e.1, v) _
            (bool_eq_false hp),
          find?_cons_neg (fun e => e.1 == pk) e l (bool_eq_false hp)]
        exact ih
    · rw [if_neg hq]
      by_cases hp : (e.1 == pk) = true
      · rw [find?_cons_pos (fun e => e.1 == pk) e _ hp,
          find?_cons_pos (fun e => e.1 == pk) e l hp]
      · rw [find?_cons_neg (fun e => e.1 == pk) e _ (bool_eq_false hp),
          find?_cons_neg (fun e => e.1 == pk) e l (bool_eq_false hp)]
        exact ih

theorem alistFind_update_isSome {α : Type} (l : List (Nat × α))
    (q pk : Nat) (v : α) :
    (alistFind (alistUpdate l q v) pk).isSome = (alistFind l pk).isSome := by
  unfold alistFind alistUpdate
  rw [isSome_option_map, isSome_option_map]
  exact find?_map_update_isSome q pk v l

theorem find?_filter_self_none {α : Type} (k : Nat) (l : List (Nat × α)) :
    List.find? (fun e => e.1 == k) (l.filter (fun e => !(e.1 == k)))
      = none := by
  induction l with
  | nil => rfl
  | cons e l ih =>
    by_cases hk : (e.1 == k) = true
    · rw [List.filter_cons, if_neg (by simp [hk])]
      exact ih
    · rw [List.filter_cons, if_pos (by simp [bool_eq_false hk]),
        find?_cons_neg (fun e => e.1 == k) e _ (bool_eq_false hk), ih]

theorem find?_filter_ne {α : Type} (q pk : Nat) (l : List (Nat × α))
    (h : q ≠ pk) :
    List.find? (fun e => e.1 == pk) (l.filter (fun e => !(e.1 == q)))
      = List.find? (fun e => e.1 == pk) l := by
  induction l with
  | nil => rfl
  | cons e l ih =>
    by_cases hq : (e.1 == q) = true
    · have heq : e.1 = q := by simpa using hq
      have hp : (e.1 == pk) = false := by
        rw [heq]
        simpa using h
      rw [List.filter_cons, if_neg (by simp [hq]),
        find?_cons_neg (fun e => e.1 == pk) e l hp, ih]
    · rw [List.filter_cons, if_pos (by simp [bool_eq_false hq])]
      by_cases hp : (e.1 == pk) = true
      · rw [find?_cons_pos (fun e => e.1 == pk) e _ hp,
          find?_cons_pos (fun e => e.1 == pk) e l hp]
      · rw [find?_cons_neg (fun e => e.1 == pk) e _ (bool_eq_false hp),
          find?_cons_neg (fun e => e.1 == pk) e l (bool_eq_false hp), ih]

theorem alistFind_erase_self {α : Type} (l : List (Nat × α)) (k : Nat) :
    alistFind (alistErase l k) k = none := by
  unfold alistFind alistErase
  rw [find?_filter_self_none]
  rfl

theorem alistFind_erase_other {α : Type} (l : List (Nat × α)) (q pk : Nat)
    (h : q ≠ pk) : alistFind (alistErase l q) pk = alistFind l pk := by
  unfold alistFind alistErase
  rw [find?_filter_ne q pk l h]

theorem connStep_preserves (jobs : PendingJobs) (pk : PubKey)
    (e : ConnEvent) (hp : HasPendingConnectJob jobs pk = true)
    (he : erasesJob jobs pk e = false) :
    HasPendingConnectJob (connStep jobs e) pk = true := by
  cases e with
  | tryConnect q t =>
    simp only [connStep, llarp_router_try_connect]
    by_cases hpend : HasPendingConnectJob jobs q = true
    · rw [if_pos hpend]
      exact hp
    · rw [if_neg hpend]
      rw [hasPending_eq_isSome] at hp ⊢
      rw [alistFind_append]
      cases hf : alistFind jobs pk with
      | none => rw [hf] at hp; exact absurd hp (by simp)
      | some u => rfl
  | attempt q =>
    simp only [connStep, TryConnectJob_Attempt]
    rw [hasPending_eq_isSome] at hp ⊢
    rw [alistFind_update_isSome]
    exact hp
  | timedout q =>
    simp only [connStep, TryConnectJob_AttemptTimedout]
    simp only [erasesJob] at he
    cases hf : alistFind jobs q with
    | none => exact hp
    | some t =>
      cases t with
      | zero =>
        have hq : (q == pk) = false := by
          rw [hf] at he
          simpa using he
        have hq' : q ≠ pk := by simpa using hq
        rw [hasPending_eq_isSome] at hp ⊢
        rw [alistFind_erase_other jobs q pk hq']
        exact hp
      | succ t =>
        simp only [TryConnectJob_Attempt]
        rw [hasPending_eq_isSome] at hp ⊢
        rw [alistFind_update_isSome]
        exact hp
  | flush q =>
    simp only [connStep, Router_FlushOutboundFor]
    simp only [erasesJob] at he
    have hq : q ≠ pk := by simpa using he
    rw [hasPending_eq_isSome] at hp ⊢
    rw [alistFind_erase_other jobs q pk hq]
    exact hp

theorem connTrace_preserves (pk : PubKey) (evs : List ConnEvent) :
    ∀ jobs : PendingJobs, HasPendingConnectJob jobs pk = true →
      (∀ e ∈ evs, e ≠ .flush pk ∧ e ≠ .timedout pk) →
      HasPendingConnectJob (evs.foldl connStep jobs) pk = true := by
  induction evs with
  | nil =>
    intro jobs hp _
    exact hp
  | cons e rest ih =>
    intro jobs hp hno
    obtain ⟨hf, ht⟩ := hno e (List.mem_cons_self e rest)
    have he : erasesJob jobs pk e = false := by
      cases e with
      | tryConnect q t => rfl
      | attempt q => rfl
      | timedout q =>
        have hq : q ≠ pk := fun hcontra => ht (by rw [hcontra])
        simp [erasesJob, hq]
      | flush q =>
        have hq : q ≠ pk := fun hcontra => hf (by rw [hcontra])
        simp [erasesJob, hq]
    exact ih (connStep jobs e) (connStep_preserves jobs pk e hp he)
      (fun e' he' => hno e' (List.mem_cons_of_mem _ he'))

/-- C9: at most one pending establish job exists per peer:
`llarp_router_try_connect` refuses and inserts nothing when a job is
already pending, and otherwise installs one; a pending job survives
every event of the connect machinery other than `FlushOutboundFor` on
that peer and `AttemptTimedout` on that peer with its retries exhausted,
and those two do erase it. -/
theorem pending_connect_job_lifecycle (jobs : PendingJobs) (pk : PubKey)
    (tries : Nat) :
    (HasPendingConnectJob jobs pk = true →
      llarp_router_try_connect jobs pk tries = (jobs, false))
    ∧ (HasPendingConnectJob jobs pk = false →
      (llarp_router_try_connect jobs pk tries).2 = true
      ∧ HasPendingConnectJob (llarp_router_try_connect jobs pk tries).1 pk
          = true)
    ∧ (∀ e, HasPendingConnectJob jobs pk = true →
        erasesJob jobs pk e = false →
        HasPendingConnectJob (connStep jobs e) pk = true)
    ∧ HasPendingConnectJob (Router_FlushOutboundFor jobs pk) pk = false
    ∧ (alistFind jobs pk = some 0 →
        HasPendingConnectJob (TryConnectJob_AttemptTimedout jobs pk) pk
          = false)
    ∧ (∀ evs : List ConnEvent, HasPendingConnectJob jobs pk = true →
        (∀ e ∈ evs, e ≠ .flush pk ∧ e ≠ .timedout pk) →
        HasPendingConnectJob (evs.foldl connStep jobs) pk = true) := by
  refine ⟨?_, ?_, ?_, ?_, ?_, ?_⟩
  · intro h
    unfold llarp_router_try_connect
    rw [if_pos h]
  · intro h
    unfold llarp_router_try_connect
    rw [if_neg (by rw [h]; exact fun hcontra => absurd hcontra (by simp))]
    refine ⟨rfl, ?_⟩
    rw [hasPending_eq_isSome] at h ⊢
    rw [alistFind_append]
    have hnone : alistFind jobs pk = none := by
      cases hf : alistFind jobs pk with
      | none => rfl
      | some u => rw [hf] at h; exact absurd h (by simp)
    rw [hnone, alistFind_singleton]
    simp
  · exact fun e hp he => connStep_preserves jobs pk e hp he
  · rw [hasPending_eq_isSome]
    unfold Router_FlushOutboundFor
    rw [alistFind_erase_self]
    rfl
  · intro h
    have hred : TryConnectJob_AttemptTimedout jobs pk
        = alistErase jobs pk := by
      unfold TryConnectJob_AttemptTimedout
      rw [h]
    rw [hred, hasPending_eq_isSome, alistFind_erase_self]
    rfl
  · exact fun evs hp hno => connTrace_preserves pk evs jobs hp hno

/-- Concrete witness for `pending_connect_job_lifecycle`: peer 3
gets a job with 2 tries; a duplicate try is refused; a flush and an
exhausted timeout erase it; unrelated events keep it pending. -/
theorem pending_connect_job_lifecycle_witness :
    llarp_router_try_connect [(3, 2)] 3 5 = ([(3, 2)], false)
    ∧ ((llarp_router_try_connect [] 3 2).2 = true
      ∧ HasPendingConnectJob (llarp_router_try_connect [] 3 2).1 3 = true)
    ∧ HasPendingConnectJob (Router_FlushOutboundFor [(3, 2)] 3) 3 = false
    ∧ HasPendingConnectJob
        (TryConnectJob_AttemptTimedout [(3, 0)] 3) 3 = false
    ∧ HasPendingConnectJob
        (List.foldl connStep [(3, 2)]
          [ConnEvent.attempt 3, ConnEvent.timedout 7]) 3 = true :=
  ⟨(pending_connect_job_lifecycle [(3, 2)] 3 5).1 rfl,
    (pending_connect_job_lifecycle [] 3 2).2.1 rfl,
    (pending_connect_job_lifecycle [(3, 2)] 3 0).2.2.2.1,
    (pending_connect_job_lifecycle [(3, 0)] 3 0).2.2.2.2.1 rfl,
    (pending_connect_job_lifecycle [(3, 2)] 3 0).2.2.2.2.2
      [ConnEvent.attempt 3, ConnEvent.timedout 7] rfl (by decide)⟩
